import Mathlib

/-!
Shallow embedding of the CloudTrail event pagination and identity-extraction
logic of `cmd/cloudtrail/event.go` (package `cloudtrail` of osdctl), together
with proofs about its behaviour.

The two pieces embedded are:
- `EventAPI.GetEvents`: a producer goroutine that drives an AWS
  `LookupEventsPaginator` and streams one `EventResult` per fetched page over
  an unbuffered channel, closing the channel (via `defer`) when it stops.
- `ExtractUserDetails`: a pure decode-and-validate function that parses a
  CloudTrail event JSON string into a `RawEventDetails` structure and checks
  the `eventVersion` field against the supported compatibility window.
-/

namespace Cloudtrail

/-- Raw audit-log event records are opaque to this component (`types.Event`
in the source); we model them as an abstract token. -/
abbrev CTEvent := String

/-- Errors returned by the remote collaborator are opaque `error` values. -/
abbrev FetchError := String

/-- Mirrors the Go struct `Period` (defined elsewhere in the repository and
used here only for its `StartTime`/`EndTime` fields, which are opaque
timestamps passed through to the query input). -/
structure Period where
  StartTime : Int
  EndTime : Int
deriving DecidableEq

/-- Mirrors `types.LookupAttribute` as used in `GetEvents`: a key and a
value (the Go value is a `*string`; the code always sets it). -/
structure LookupAttribute where
  AttributeKey : String
  AttributeValue : String
deriving DecidableEq

/-- Mirrors the fields of `cloudtrail.LookupEventsInput` that `GetEvents`
sets.  A Go nil `LookupAttributes` slice is the empty list. -/
structure LookupEventsInput where
  StartTime : Int
  EndTime : Int
  LookupAttributes : List LookupAttribute
deriving DecidableEq

/-- Mirrors the Go struct `EventResult`: a slice of events (`none` models a
Go nil slice, as sent on the error path) and an optional error. -/
structure EventResult where
  AWSEvent : Option (List CTEvent)
  errors : Option FetchError
deriving DecidableEq

/-- One response of the remote collaborator to a `LookupEvents` call: either
a page of events or a fetch error.  A script `List PageOutcome` models the
paginator/collaborator pair: outcomes are consumed one per `NextPage` call,
and `HasMorePages` reports true exactly while outcomes remain (the last
successful page is the one returned without a continuation token). -/
inductive PageOutcome where
  | ok (events : List CTEvent)
  | fail (e : FetchError)
deriving DecidableEq

/-- The observable behaviour of one run of the producer goroutine of
`GetEvents`: the sequence of `EventResult` values sent on the channel, in
order, and whether the goroutine panicked.  In both end states the deferred
`close(pageChan)` runs, so the channel is closed when the run ends; a
`panicked = true` run additionally crashes the process (an unrecovered panic
in a goroutine), with the panic raised after the error result was sent. -/
structure ProducerRun where
  emissions : List EventResult
  panicked : Bool
deriving DecidableEq

/-- The producer loop of `GetEvents` (event.go lines 81-96).  For each page
while `HasMorePages`: call `NextPage`; on error, send
`EventResult{AWSEvent: nil, errors: err}` — and then, because the loop body
does not `continue`, fall through to `lookupOutput.Events` with
`lookupOutput == nil`, a nil-pointer dereference that panics; on success,
append the page's events and send `EventResult{AWSEvent: events, errors: nil}`.
When no pages remain the loop exits and the deferred close runs. -/
def producerRun : List PageOutcome → ProducerRun
  | [] => ⟨[], false⟩
  | .fail e :: _ => ⟨[⟨none, some e⟩], true⟩
  | .ok evs :: rest =>
    let r := producerRun rest
    ⟨⟨some evs, none⟩ :: r.emissions, r.panicked⟩

/-- The query construction of `GetEvents` (event.go lines 65-75): a
`LookupEventsInput` carrying the period's bounds and, exactly when the
API was built with `writeOnly` set, the single lookup attribute
`ReadOnly = "false"`. -/
def buildLookupInput (writeOnly : Bool) (missing : Period) : LookupEventsInput :=
  let input : LookupEventsInput :=
    { StartTime := missing.StartTime, EndTime := missing.EndTime, LookupAttributes := [] }
  if writeOnly then
    { input with LookupAttributes := [⟨"ReadOnly", "false"⟩] }
  else
    input

/-- `EventAPI.GetEvents` (event.go lines 60-100).  The first `string`
argument is ignored by the source (`_ string`); the remote collaborator
(the `cloudtrail.Client` held by the API) is modelled as a function from
the built query input to the script of page outcomes it would serve.  The
result is the full observable run of the producer goroutine. -/
def GetEvents (writeOnly : Bool) (arg : String) (missing : Period)
    (collaborator : LookupEventsInput → List PageOutcome) : ProducerRun :=
  producerRun (collaborator (buildLookupInput writeOnly missing))

/-- Total number of event records carried across the emissions of a run. -/
def totalRecords (r : ProducerRun) : Nat :=
  (r.emissions.map (fun er => (er.AWSEvent.getD []).length)).sum

/-! ### JSON values and the `encoding/json` syntax accepted by `json.Unmarshal` -/

/-- A JSON value.  Numbers keep their lexeme only: the decode of
`RawEventDetails` never interprets a number, it can only reject one as a
type mismatch. -/
inductive Json where
  | null
  | bool (b : Bool)
  | num (lexeme : String)
  | str (s : String)
  | arr (elems : List Json)
  | obj (entries : List (String × Json))

/-- JSON insignificant whitespace (also the whitespace `fmt`'s scanner
skips before a `%d` verb, up to exotic Unicode spaces). -/
def isJsonWs (c : Char) : Bool :=
  c = ' ' || c = '\t' || c = '\n' || c = '\r'

def skipWs : List Char → List Char
  | [] => []
  | c :: cs => if isJsonWs c then skipWs cs else c :: cs

/-- Decoded character for a single-character escape sequence in a JSON
string, as accepted by `encoding/json`. -/
def jsonEscapeChar (c : Char) : Option Char :=
  if c = '"' then some '"'
  else if c = '\\' then some '\\'
  else if c = '/' then some '/'
  else if c = 'b' then some '\x08'
  else if c = 'f' then some '\x0c'
  else if c = 'n' then some '\n'
  else if c = 'r' then some '\r'
  else if c = 't' then some '\t'
  else none

def hexVal (c : Char) : Option Nat :=
  if '0' ≤ c ∧ c ≤ '9' then some (c.toNat - '0'.toNat)
  else if 'a' ≤ c ∧ c ≤ 'f' then some (c.toNat - 'a'.toNat + 10)
  else if 'A' ≤ c ∧ c ≤ 'F' then some (c.toNat - 'A'.toNat + 10)
  else none

/-- Body of a JSON string, the opening quote already consumed: returns the
decoded characters and the input following the closing quote.  Raw control
characters below `0x20` are rejected, escapes are decoded (`\uXXXX` to the
scalar value; surrogate-pair recombination is not modelled). -/
def parseStringRest : List Char → Option (List Char × List Char)
  | [] => none
  | c :: cs =>
    if c = '"' then some ([], cs)
    else if c = '\\' then
      match cs with
      | [] => none
      | e :: cs2 =>
        if e = 'u' then
          match cs2 with
          | h1 :: h2 :: h3 :: h4 :: cs3 =>
            match hexVal h1, hexVal h2, hexVal h3, hexVal h4 with
            | some a, some b, some c2, some d =>
              match parseStringRest cs3 with
              | some (s, r) => some (Char.ofNat (((a * 16 + b) * 16 + c2) * 16 + d) :: s, r)
              | none => none
            | _, _, _, _ => none
          | _ => none
        else
          match jsonEscapeChar e with
          | some ch =>
            match parseStringRest cs2 with
            | some (s, r) => some (ch :: s, r)
            | none => none
          | none => none
    else if c.toNat < 0x20 then none
    else
      match parseStringRest cs with
      | some (s, r) => some (c :: s, r)
      | none => none

/-- Longest leading run of decimal digits. -/
def takeDigits : List Char → (List Char × List Char)
  | [] => ([], [])
  | c :: cs =>
    if c.isDigit then
      let (ds, r) := takeDigits cs
      (c :: ds, r)
    else ([], c :: cs)

/-- A JSON number lexeme per RFC 8259 (`-? int frac? exp?`), which is the
grammar `encoding/json` enforces: returns the lexeme and the rest. -/
def parseNumberLexeme (cs : List Char) : Option (List Char × List Char) :=
  let (sign, cs1) :=
    match cs with
    | '-' :: r => ([('-' : Char)], r)
    | _ => (([] : List Char), cs)
  match cs1 with
  | [] => none
  | c :: r =>
    let intPart? : Option (List Char × List Char) :=
      if c = '0' then some ([c], r)
      else if c.isDigit then
        let (ds, r2) := takeDigits r
        some (c :: ds, r2)
      else none
    match intPart? with
    | none => none
    | some (ip, r2) =>
      let fracPart? : Option (List Char × List Char) :=
        match r2 with
        | '.' :: r3 =>
          match takeDigits r3 with
          | ([], _) => none
          | (ds, r4) => some ('.' :: ds, r4)
        | _ => some ([], r2)
      match fracPart? with
      | none => none
      | some (fp, r4) =>
        let expPart? : Option (List Char × List Char) :=
          match r4 with
          | e :: r5 =>
            if e = 'e' ∨ e = 'E' then
              let (es, r6) :=
                match r5 with
                | '+' :: r6 => ([e, '+'], r6)
                | '-' :: r6 => ([e, '-'], r6)
                | _ => ([e], r5)
              match takeDigits r6 with
              | ([], _) => none
              | (ds, r7) => some (es ++ ds, r7)
            else some ([], r4)
          | [] => some ([], r4)
        match expPart? with
        | none => none
        | some (ep, r7) => some (sign ++ ip ++ fp ++ ep, r7)

mutual

/-- One JSON value, leading whitespace allowed, by recursive descent.  The
fuel only bounds the recursion depth; `parseJson` supplies enough of it that
exhaustion is unreachable. -/
def parseValue : Nat → List Char → Option (Json × List Char)
  | 0, _ => none
  | fuel + 1, cs =>
    match skipWs cs with
    | [] => none
    | c :: rest =>
      if c = 'n' then
        match rest with
        | 'u' :: 'l' :: 'l' :: r => some (.null, r)
        | _ => none
      else if c = 't' then
        match rest with
        | 'r' :: 'u' :: 'e' :: r => some (.bool true, r)
        | _ => none
      else if c = 'f' then
        match rest with
        | 'a' :: 'l' :: 's' :: 'e' :: r => some (.bool false, r)
        | _ => none
      else if c = '"' then
        match parseStringRest rest with
        | some (s, r) => some (.str (String.mk s), r)
        | none => none
      else if c = '{' then
        match skipWs rest with
        | '}' :: r => some (.obj [], r)
        | cs2 =>
          match parseMembers fuel cs2 with
          | some (ms, r) => some (.obj ms, r)
          | none => none
      else if c = '[' then
        match skipWs rest with
        | ']' :: r => some (.arr [], r)
        | cs2 =>
          match parseElems fuel cs2 with
          | some (es, r) => some (.arr es, r)
          | none => none
      else if c = '-' ∨ c.isDigit then
        match parseNumberLexeme (c :: rest) with
        | some (l, r) => some (.num (String.mk l), r)
        | none => none
      else none

/-- Members of a JSON object, the opening brace consumed and at least one
member present, up to and including the closing brace. -/
def parseMembers : Nat → List Char → Option (List (String × Json) × List Char)
  | 0, _ => none
  | fuel + 1, cs =>
    match skipWs cs with
    | '"' :: r =>
      match parseStringRest r with
      | none => none
      | some (key, r2) =>
        match skipWs r2 with
        | ':' :: r3 =>
          match parseValue fuel r3 with
          | none => none
          | some (v, r4) =>
            match skipWs r4 with
            | ',' :: r5 =>
              match parseMembers fuel r5 with
              | some (ms, r6) => some ((String.mk key, v) :: ms, r6)
              | none => none
            | '}' :: r5 => some ([(String.mk key, v)], r5)
            | _ => none
        | _ => none
    | _ => none

/-- Elements of a JSON array, the opening bracket consumed and at least one
element present, up to and including the closing bracket. -/
def parseElems : Nat → List Char → Option (List Json × List Char)
  | 0, _ => none
  | fuel + 1, cs =>
    match parseValue fuel cs with
    | none => none
    | some (v, r) =>
      match skipWs r with
      | ',' :: r2 =>
        match parseElems fuel r2 with
        | some (es, r3) => some (v :: es, r3)
        | none => none
      | ']' :: r2 => some ([v], r2)
      | _ => none

end

/-- The syntax check of `json.Unmarshal`: exactly one JSON value, with only
whitespace around it.  `none` models a `SyntaxError`. -/
def parseJson (s : String) : Option Json :=
  match parseValue (s.length * 3 + 16) s.data with
  | some (v, rest) => if skipWs rest = [] then some v else none
  | none => none

/-! ### Decoding a JSON value into `RawEventDetails`, as `json.Unmarshal` does -/

/-- Mirrors the anonymous `sessionIssuer` struct inside `RawEventDetails`
(the Go field `Type` is renamed `type`, `Type` not being a legal Lean field
name). -/
structure SessionIssuer where
  type : String
  UserName : String
  Arn : String
deriving DecidableEq

/-- Mirrors the anonymous `sessionContext` struct inside `RawEventDetails`. -/
structure SessionContext where
  SessionIssuer : SessionIssuer
deriving DecidableEq

/-- Mirrors the anonymous `userIdentity` struct inside `RawEventDetails`. -/
structure UserIdentity where
  AccountId : String
  SessionContext : SessionContext
deriving DecidableEq

/-- Mirrors the Go struct `RawEventDetails` (event.go lines 14-29), the
shape `json.Unmarshal` decodes a CloudTrail event into. -/
structure RawEventDetails where
  EventVersion : String
  UserIdentity : UserIdentity
  EventRegion : String
  EventId : String
  ErrorCode : String
deriving DecidableEq

/-- The zero value `RawEventDetails{}`, which every error path of
`ExtractUserDetails` returns a fresh pointer to. -/
def zeroRawEventDetails : RawEventDetails :=
  ⟨"", ⟨"", ⟨⟨"", "", ""⟩⟩⟩, "", "", ""⟩

/-- ASCII lower-casing of one character. -/
def asciiLower (c : Char) : Char :=
  if 'A' ≤ c ∧ c ≤ 'Z' then Char.ofNat (c.toNat + 32) else c

/-- Go's `json` key matching is case-insensitive (`strings.EqualFold`; the
ASCII fold modelled here is the relation's restriction relevant to this
schema's keys). -/
def keyMatches (k name : String) : Bool :=
  k.data.map asciiLower = name.data.map asciiLower

/-- The values of the object entries whose key matches a struct field's JSON
name, in entry order.  `json.Unmarshal` assigns each of them to the field in
turn, so with duplicate keys the later ones win. -/
def matchesFor (entries : List (String × Json)) (name : String) : List Json :=
  (entries.filter (fun e => keyMatches e.1 name)).map (fun e => e.2)

def Json.isStringOrNull : Json → Bool
  | .str _ => true
  | .null => true
  | _ => false

/-- Decode of a `string` struct field from an object's entries: every
matching value must be a string or null (anything else is an
`UnmarshalTypeError`); null leaves the field unchanged, a string overwrites
it, so the result is the last string among the matches, `prev` when none. -/
def decodeStringField (prev : String) (entries : List (String × Json))
    (name : String) : Except Unit String :=
  let ms := matchesFor entries name
  if ms.all Json.isStringOrNull then
    .ok (ms.foldl (fun acc j => match j with | .str s => s | _ => acc) prev)
  else
    .error ()

/-- Decode of a nested-struct field: every matching value must be an object
or null; null leaves the field unchanged, and each object is decoded into
the field's current value in turn (`json.Unmarshal` merges rather than
resets on duplicate keys). -/
def foldObjField {α : Type} (dec : α → List (String × Json) → Except Unit α)
    (start : α) (entries : List (String × Json)) (name : String) : Except Unit α :=
  (matchesFor entries name).foldlM
    (fun acc j =>
      match j with
      | .null => .ok acc
      | .obj sub => dec acc sub
      | _ => .error ()) start

def decodeSessionIssuer (start : SessionIssuer) (entries : List (String × Json)) :
    Except Unit SessionIssuer := do
  let t ← decodeStringField start.type entries "type"
  let u ← decodeStringField start.UserName entries "userName"
  let a ← decodeStringField start.Arn entries "arn"
  pure ⟨t, u, a⟩

def decodeSessionContext (start : SessionContext) (entries : List (String × Json)) :
    Except Unit SessionContext := do
  let si ← foldObjField decodeSessionIssuer start.SessionIssuer entries "sessionIssuer"
  pure ⟨si⟩

def decodeUserIdentity (start : UserIdentity) (entries : List (String × Json)) :
    Except Unit UserIdentity := do
  let acc ← decodeStringField start.AccountId entries "accountId"
  let sc ← foldObjField decodeSessionContext start.SessionContext entries "sessionContext"
  pure ⟨acc, sc⟩

def decodeRawFields (start : RawEventDetails) (entries : List (String × Json)) :
    Except Unit RawEventDetails := do
  let ev ← decodeStringField start.EventVersion entries "eventVersion"
  let ui ← foldObjField decodeUserIdentity start.UserIdentity entries "userIdentity"
  let reg ← decodeStringField start.EventRegion entries "awsRegion"
  let eid ← decodeStringField start.EventId entries "eventID"
  let ec ← decodeStringField start.ErrorCode entries "errorCode"
  pure ⟨ev, ui, reg, eid, ec⟩

/-- `json.Unmarshal(data, &res)` once the syntax is accepted: a JSON null
leaves `res` at its zero value without error, an object is decoded field by
field, and any other top-level value is an `UnmarshalTypeError`. -/
def decodeRawEventDetails (j : Json) : Except Unit RawEventDetails :=
  match j with
  | .null => .ok zeroRawEventDetails
  | .obj entries => decodeRawFields zeroRawEventDetails entries
  | _ => .error ()

/-! ### The `fmt.Sscanf(version, "%d.%d", ...)` model -/

/-- Decimal digits folded into a number, longest run, remainder returned. -/
def digitsToNat (acc : Nat) : List Char → (Nat × List Char)
  | [] => (acc, [])
  | c :: cs =>
    if c.isDigit then digitsToNat (acc * 10 + (c.toNat - '0'.toNat)) cs
    else (acc, c :: cs)

/-- A `%d` verb scanning into a Go `int`: leading whitespace skipped, an
optional sign, at least one digit, and the value must fit a signed 64-bit
integer (`strconv` reports `value out of range` otherwise, which `Sscanf`
surfaces as an error). -/
def scanInt64 (cs : List Char) : Option (Int × List Char) :=
  let cs1 := skipWs cs
  let (sign, cs2) : Int × List Char :=
    match cs1 with
    | '+' :: r => (1, r)
    | '-' :: r => (-1, r)
    | _ => (1, cs1)
  match cs2 with
  | c :: _ =>
    if c.isDigit then
      let (n, rest) := digitsToNat 0 cs2
      let v : Int := sign * (n : Int)
      if -(2 ^ 63) ≤ v ∧ v < 2 ^ 63 then some (v, rest) else none
    else none
  | [] => none

/-- `fmt.Sscanf(s, "%d.%d", &major, &minor)`: a `%d`, then the literal `.`
matched exactly, then a second `%d`; input after the second number is left
unconsumed without error.  `none` models `err != nil` (fewer than two items
scanned). -/
def sscanfVersion (s : String) : Option (Int × Int) :=
  match scanInt64 s.data with
  | none => none
  | some (maj, rest) =>
    match rest with
    | '.' :: rest2 =>
      match scanInt64 rest2 with
      | none => none
      | some (minr, _) => some (maj, minr)
    | _ => none

/-! ### `ExtractUserDetails` -/

/-- The four `fmt.Errorf` sites of `ExtractUserDetails`, named as the spec's
error taxonomy names them. -/
inductive ExtractError where
  | invalidInput
  | decodeError
  | versionParseError
  | unsupportedVersion (got : String)
deriving DecidableEq

/-- The message of each error site.  For `decodeError` and
`versionParseError` the Go message continues with `: ` and the wrapped
error's text; the fixed text is modelled. -/
def ExtractError.message : ExtractError → String
  | .invalidInput => "cannot parse a nil input"
  | .decodeError => "could not marshal event.CloudTrailEvent"
  | .versionParseError => "failed to parse CloudTrail event version"
  | .unsupportedVersion got =>
    "unexpected event version (got " ++ got ++ ", expected compatibility with 1.8)"

def supportedEventVersionMajor : Int := 1

def minSupportedEventVersionMinor : Int := 8

/-- `ExtractUserDetails` (event.go lines 103-124).  The Go parameter is a
`*string`, modelled as `Option String`; the Go result is
`(*RawEventDetails, error)`, modelled as a pair of an optional structure
(`none` would be a nil pointer, which no path produces) and an optional
error.  The function is total: no input panics. -/
def ExtractUserDetails (cloudTrailEvent : Option String) :
    Option RawEventDetails × Option ExtractError :=
  match cloudTrailEvent with
  | none => (some zeroRawEventDetails, some .invalidInput)
  | some s =>
    if s = "" then (some zeroRawEventDetails, some .invalidInput)
    else
      match parseJson s with
      | none => (some zeroRawEventDetails, some .decodeError)
      | some v =>
        match decodeRawEventDetails v with
        | .error _ => (some zeroRawEventDetails, some .decodeError)
        | .ok res =>
          match sscanfVersion res.EventVersion with
          | none => (some zeroRawEventDetails, some .versionParseError)
          | some (responseMajor, responseMinor) =>
            if responseMajor ≠ supportedEventVersionMajor ∨
                responseMinor < minSupportedEventVersionMinor then
              (some zeroRawEventDetails, some (.unsupportedVersion res.EventVersion))
            else
              (some res, none)

/-! ### The expected payload shape (spec section 6) and its field projections -/

/-- A string field of the expected shape: among the object's entries, at
most one key matches `name` under the decoder's case-insensitive relation,
and such an entry has exactly the key `name` and a string value. -/
def strFieldOk (entries : List (String × Json)) (name : String) : Bool :=
  match entries.filter (fun e => keyMatches e.1 name) with
  | [] => true
  | [(k, .str _)] => k == name
  | _ => false

/-- The value of a string field of the expected shape, `prev` when absent. -/
def jsonStrFieldD (prev : String) (entries : List (String × Json))
    (name : String) : String :=
  match entries.filter (fun e => keyMatches e.1 name) with
  | [(_, .str s)] => s
  | _ => prev

/-- The value of a string field of the expected shape, empty when absent. -/
def jsonStrField (entries : List (String × Json)) (name : String) : String :=
  jsonStrFieldD "" entries name

/-- An object field of the expected shape: at most one matching entry, with
exactly the key `name`, an object value, and an inner shape that holds. -/
def objFieldOk (entries : List (String × Json)) (name : String)
    (inner : List (String × Json) → Bool) : Bool :=
  match entries.filter (fun e => keyMatches e.1 name) with
  | [] => true
  | [(k, .obj sub)] => k == name && inner sub
  | _ => false

/-- The entries of an object field of the expected shape, empty when the
field is absent. -/
def jsonObjField (entries : List (String × Json)) (name : String) :
    List (String × Json) :=
  match entries.filter (fun e => keyMatches e.1 name) with
  | [(_, .obj sub)] => sub
  | _ => []

def sessionIssuerShape (entries : List (String × Json)) : Bool :=
  strFieldOk entries "type" && strFieldOk entries "userName" && strFieldOk entries "arn"

def sessionContextShape (entries : List (String × Json)) : Bool :=
  objFieldOk entries "sessionIssuer" sessionIssuerShape

def userIdentityShape (entries : List (String × Json)) : Bool :=
  strFieldOk entries "accountId" && objFieldOk entries "sessionContext" sessionContextShape

/-- Well-formed JSON of the expected shape (spec section 6): an object whose
schema fields, where present, carry the exact key and a value of the
schema's type; entries matching no schema key are tolerated and ignored. -/
def expectedShape : Json → Bool
  | .obj entries =>
    strFieldOk entries "eventVersion" &&
    objFieldOk entries "userIdentity" userIdentityShape &&
    strFieldOk entries "awsRegion" &&
    strFieldOk entries "eventID" &&
    strFieldOk entries "errorCode"
  | _ => false

/-- The identity view an expected-shape `sessionIssuer` object denotes,
fields starting from `st`. -/
def issuerSpec (st : SessionIssuer) (sub : List (String × Json)) : SessionIssuer :=
  ⟨jsonStrFieldD st.type sub "type",
   jsonStrFieldD st.UserName sub "userName",
   jsonStrFieldD st.Arn sub "arn"⟩

/-- The view an expected-shape `sessionContext` object denotes. -/
def contextSpec (st : SessionContext) (sub : List (String × Json)) : SessionContext :=
  ⟨issuerSpec st.SessionIssuer (jsonObjField sub "sessionIssuer")⟩

/-- The view an expected-shape `userIdentity` object denotes. -/
def identitySpec (st : UserIdentity) (sub : List (String × Json)) : UserIdentity :=
  ⟨jsonStrFieldD st.AccountId sub "accountId",
   contextSpec st.SessionContext (jsonObjField sub "sessionContext")⟩

/-- The view an expected-shape top-level event object denotes. -/
def detailsSpec (st : RawEventDetails) (entries : List (String × Json)) :
    RawEventDetails :=
  ⟨jsonStrFieldD st.EventVersion entries "eventVersion",
   identitySpec st.UserIdentity (jsonObjField entries "userIdentity"),
   jsonStrFieldD st.EventRegion entries "awsRegion",
   jsonStrFieldD st.EventId entries "eventID",
   jsonStrFieldD st.ErrorCode entries "errorCode"⟩

/-! ### Decode agrees with the field projections on expected-shape input -/

theorem decodeStringField_of_ok (prev : String) (entries : List (String × Json))
    (name : String) (h : strFieldOk entries name = true) :
    decodeStringField prev entries name = .ok (jsonStrFieldD prev entries name) := by
  unfold strFieldOk at h
  unfold decodeStringField matchesFor jsonStrFieldD
  split at h
  · rename_i heq
    rw [heq]
    simp
  · rename_i k s heq
    rw [heq]
    simp [Json.isStringOrNull]
  · rename_i heq hne1 hne2
    simp at h

theorem foldObjField_of_shape {α : Type}
    (dec : α → List (String × Json) → Except Unit α)
    (decSpec : α → List (String × Json) → α)
    (inner : List (String × Json) → Bool)
    (hdec : ∀ st sub, inner sub = true → dec st sub = .ok (decSpec st sub))
    (hid : ∀ st, decSpec st [] = st)
    (start : α) (entries : List (String × Json)) (name : String)
    (h : objFieldOk entries name inner = true) :
    foldObjField dec start entries name =
      .ok (decSpec start (jsonObjField entries name)) := by
  unfold objFieldOk at h
  unfold foldObjField matchesFor jsonObjField
  split at h
  · rename_i heq
    rw [heq]
    simp only [List.map_nil, List.foldlM_nil, hid]
    rfl
  · rename_i k sub heq
    rw [heq]
    simp only [Bool.and_eq_true, beq_iff_eq] at h
    simp [List.foldlM, hdec _ _ h.2]
  · rename_i heq hne1 hne2
    simp at h

theorem decodeSessionIssuer_of_shape (start : SessionIssuer)
    (entries : List (String × Json)) (h : sessionIssuerShape entries = true) :
    decodeSessionIssuer start entries = .ok (issuerSpec start entries) := by
  unfold sessionIssuerShape at h
  simp only [Bool.and_eq_true] at h
  obtain ⟨⟨h1, h2⟩, h3⟩ := h
  unfold decodeSessionIssuer issuerSpec
  rw [decodeStringField_of_ok _ _ _ h1, decodeStringField_of_ok _ _ _ h2,
    decodeStringField_of_ok _ _ _ h3]
  rfl

theorem decodeSessionContext_of_shape (start : SessionContext)
    (entries : List (String × Json)) (h : sessionContextShape entries = true) :
    decodeSessionContext start entries = .ok (contextSpec start entries) := by
  unfold sessionContextShape at h
  unfold decodeSessionContext contextSpec
  rw [foldObjField_of_shape decodeSessionIssuer issuerSpec sessionIssuerShape
    (fun st sub hs => decodeSessionIssuer_of_shape st sub hs) (fun _ => rfl) _ _ _ h]
  rfl

theorem decodeUserIdentity_of_shape (start : UserIdentity)
    (entries : List (String × Json)) (h : userIdentityShape entries = true) :
    decodeUserIdentity start entries = .ok (identitySpec start entries) := by
  unfold userIdentityShape at h
  simp only [Bool.and_eq_true] at h
  obtain ⟨h1, h2⟩ := h
  unfold decodeUserIdentity identitySpec
  rw [decodeStringField_of_ok _ _ _ h1,
    foldObjField_of_shape decodeSessionContext contextSpec sessionContextShape
      (fun st sub hs => decodeSessionContext_of_shape st sub hs) (fun _ => rfl) _ _ _ h2]
  rfl

theorem decodeRawEventDetails_of_shape (entries : List (String × Json))
    (h : expectedShape (.obj entries) = true) :
    decodeRawEventDetails (.obj entries) =
      .ok (detailsSpec zeroRawEventDetails entries) := by
  unfold expectedShape at h
  simp only [Bool.and_eq_true] at h
  obtain ⟨⟨⟨⟨h1, h2⟩, h3⟩, h4⟩, h5⟩ := h
  simp only [decodeRawEventDetails]
  unfold decodeRawFields detailsSpec
  rw [decodeStringField_of_ok _ _ _ h1,
    foldObjField_of_shape decodeUserIdentity identitySpec userIdentityShape
      (fun st sub hs => decodeUserIdentity_of_shape st sub hs) (fun _ => rfl) _ _ _ h2,
    decodeStringField_of_ok _ _ _ h3, decodeStringField_of_ok _ _ _ h4,
    decodeStringField_of_ok _ _ _ h5]
  rfl

theorem parseJson_empty : parseJson "" = none := rfl

/-- Reduction of `ExtractUserDetails` once the input's JSON syntax has been
accepted: the nil/empty guard cannot fire, and the remaining behaviour is
decided by decode, version scan and the version window check. -/
theorem extract_after_parse (s : String) (v : Json) (hp : parseJson s = some v) :
    ExtractUserDetails (some s) =
      (match decodeRawEventDetails v with
       | .error _ => (some zeroRawEventDetails, some .decodeError)
       | .ok res =>
         match sscanfVersion res.EventVersion with
         | none => (some zeroRawEventDetails, some .versionParseError)
         | some (responseMajor, responseMinor) =>
           if responseMajor ≠ supportedEventVersionMajor ∨
               responseMinor < minSupportedEventVersionMinor then
             (some zeroRawEventDetails, some (.unsupportedVersion res.EventVersion))
           else
             (some res, none)) := by
  have hne : s ≠ "" := by
    intro he
    rw [he, parseJson_empty] at hp
    exact Option.noConfusion hp
  simp only [ExtractUserDetails, if_neg hne, hp]

/-! ### The claims -/

/-- C2: for every input string that is well-formed JSON of the expected
shape whose `eventVersion` scans as major 1 and minor at least 8,
`ExtractUserDetails` succeeds and returns the structure whose fields are
the corresponding fields of the JSON payload (absent fields staying
empty).  The end-to-end payload of the claim is the witness below. -/
theorem ExtractUserDetails_wellformed_success (s : String)
    (entries : List (String × Json)) (minr : Int)
    (hp : parseJson s = some (.obj entries))
    (hs : expectedShape (.obj entries) = true)
    (hv : sscanfVersion (jsonStrField entries "eventVersion") = some (1, minr))
    (hm : 8 ≤ minr) :
    ExtractUserDetails (some s) =
      (some (detailsSpec zeroRawEventDetails entries), none) ∧
    (detailsSpec zeroRawEventDetails entries).EventVersion =
      jsonStrField entries "eventVersion" ∧
    (detailsSpec zeroRawEventDetails entries).UserIdentity.AccountId =
      jsonStrField (jsonObjField entries "userIdentity") "accountId" ∧
    (detailsSpec zeroRawEventDetails entries).EventRegion =
      jsonStrField entries "awsRegion" ∧
    (detailsSpec zeroRawEventDetails entries).EventId =
      jsonStrField entries "eventID" ∧
    (detailsSpec zeroRawEventDetails entries).ErrorCode =
      jsonStrField entries "errorCode" ∧
    (detailsSpec zeroRawEventDetails entries).UserIdentity.SessionContext.SessionIssuer =
      (let si := jsonObjField (jsonObjField (jsonObjField entries "userIdentity")
        "sessionContext") "sessionIssuer"
       ⟨jsonStrField si "type", jsonStrField si "userName", jsonStrField si "arn"⟩) := by
  have hv' : sscanfVersion (detailsSpec zeroRawEventDetails entries).EventVersion =
      some (1, minr) := hv
  refine ⟨?_, rfl, rfl, rfl, rfl, rfl, rfl⟩
  rw [extract_after_parse s _ hp, decodeRawEventDetails_of_shape entries hs]
  simp only [hv']
  rw [if_neg]
  simp only [supportedEventVersionMajor, minSupportedEventVersionMinor]
  omega

/-- C3: for every input whose JSON decodes and whose `eventVersion` scans
as `major.minor`, `ExtractUserDetails` fails with the unsupported-version
error exactly when the major component is not 1 or the minor component is
below 8. -/
theorem ExtractUserDetails_unsupportedVersion_iff (s : String) (v : Json)
    (res : RawEventDetails) (maj minr : Int)
    (hp : parseJson s = some v)
    (hd : decodeRawEventDetails v = .ok res)
    (hv : sscanfVersion res.EventVersion = some (maj, minr)) :
    (ExtractUserDetails (some s)).2 = some (.unsupportedVersion res.EventVersion) ↔
      maj ≠ 1 ∨ minr < 8 := by
  rw [extract_after_parse s v hp, hd]
  simp only [hv, supportedEventVersionMajor, minSupportedEventVersionMinor]
  by_cases hc : maj ≠ 1 ∨ minr < 8
  · rw [if_pos hc]
    simp [hc]
  · rw [if_neg hc]
    simp [hc]

/-- C4: a nil input reference or an empty referenced string always fails
with the invalid-input error, whose message is exactly
`cannot parse a nil input`; the function is total, so no such call
panics. -/
theorem ExtractUserDetails_nil_or_empty_invalidInput (input : Option String)
    (h : input = none ∨ input = some "") :
    ExtractUserDetails input = (some zeroRawEventDetails, some .invalidInput) ∧
    ExtractError.message .invalidInput = "cannot parse a nil input" := by
  refine ⟨?_, rfl⟩
  rcases h with h | h <;> subst h <;> rfl

/-- C6: for every input whose JSON decodes but whose `eventVersion` does
not scan as `<integer>.<integer>`, `ExtractUserDetails` fails with the
version-parse error and returns the zero structure, not a populated one. -/
theorem ExtractUserDetails_versionParseError (s : String) (v : Json)
    (res : RawEventDetails)
    (hp : parseJson s = some v)
    (hd : decodeRawEventDetails v = .ok res)
    (hv : sscanfVersion res.EventVersion = none) :
    ExtractUserDetails (some s) =
      (some zeroRawEventDetails, some .versionParseError) := by
  rw [extract_after_parse s v hp, hd]
  simp only [hv]

/-- C9: on every failing input — nil or empty reference, JSON decode
failure, version scan failure, or unsupported version — the details value
returned alongside the error is a (non-nil) pointer to the zero-valued
`RawEventDetails`. -/
theorem ExtractUserDetails_error_returns_zero (input : Option String)
    (e : ExtractError) (h : (ExtractUserDetails input).2 = some e) :
    (ExtractUserDetails input).1 = some zeroRawEventDetails := by
  cases input with
  | none => rfl
  | some s =>
    by_cases hse : s = ""
    · subst hse; rfl
    · simp only [ExtractUserDetails, if_neg hse] at h ⊢
      cases hp : parseJson s with
      | none => simp [hp]
      | some v =>
        simp only [hp] at h ⊢
        cases hd : decodeRawEventDetails v with
        | error u => simp [hd]
        | ok res =>
          simp only [hd] at h ⊢
          cases hv : sscanfVersion res.EventVersion with
          | none => simp [hv]
          | some pr =>
            obtain ⟨maj, minr⟩ := pr
            simp only [hv] at h ⊢
            by_cases hc : maj ≠ supportedEventVersionMajor ∨
                minr < minSupportedEventVersionMinor
            · rw [if_pos hc]
            · rw [if_neg hc] at h
              exact Option.noConfusion h

/-- Error-free scripts: the producer emits one result per page, carrying
that page's records with a nil error, in page order, and exits the loop
normally (the deferred close then closes the channel, with no panic). -/
theorem producerRun_map_ok (pages : List (List CTEvent)) :
    producerRun (pages.map .ok) =
      ⟨pages.map (fun evs => ⟨some evs, none⟩), false⟩ := by
  induction pages with
  | nil => rfl
  | cons hd tl ih => simp [producerRun, ih]

/-- C1: when the second of three page fetches fails, the consumer does
receive the Page Result carrying that error (with a nil record sequence)
for page 2 — but pagination does not continue.  `NextPage` returns a nil
output with the error, the loop body emits the error result and then, for
want of a `continue`, dereferences `lookupOutput.Events` on the nil
output: the producer goroutine panics, so page 3's Page Result is never
delivered.  The run records exactly the page-1 result and the page-2 error
result, and ends in the panic. -/
theorem GetEvents_page2_error_panics (w : Bool) (arg : String) (p : Period)
    (e1 e2 e3 : CTEvent) (err : FetchError) :
    GetEvents w arg p (fun _ => [.ok [e1, e2], .fail err, .ok [e3]]) =
      ⟨[⟨some [e1, e2], none⟩, ⟨none, some err⟩], true⟩ :=
  rfl

/-- C5: a remote collaborator serving exactly three error-free pages of
sizes 2, 2 and 1 yields exactly three Page Results, in page order, each
carrying that page's records with a nil error, after which the producer
exits its loop and the deferred close closes the channel; the total record
count across the results is 5. -/
theorem GetEvents_three_pages_stream (w : Bool) (arg : String) (p : Period)
    (c : LookupEventsInput → List PageOutcome) (p1 p2 p3 : List CTEvent)
    (hlen1 : p1.length = 2) (hlen2 : p2.length = 2) (hlen3 : p3.length = 1)
    (hc : c (buildLookupInput w p) = [.ok p1, .ok p2, .ok p3]) :
    GetEvents w arg p c =
      ⟨[⟨some p1, none⟩, ⟨some p2, none⟩, ⟨some p3, none⟩], false⟩ ∧
    totalRecords (GetEvents w arg p c) = 5 := by
  have h1 : GetEvents w arg p c =
      ⟨[⟨some p1, none⟩, ⟨some p2, none⟩, ⟨some p3, none⟩], false⟩ := by
    unfold GetEvents
    rw [hc]
    exact producerRun_map_ok [p1, p2, p3]
  refine ⟨h1, ?_⟩
  rw [h1]
  simp [totalRecords, hlen1, hlen2, hlen3]

/-- C7: the remote query built by `GetEvents` carries exactly the lookup
attribute `ReadOnly = "false"` when the paginator was built write-only and
no lookup attribute otherwise, and records are not filtered after receipt:
the emitted results carry exactly the fetched pages, unchanged. -/
theorem GetEvents_writeOnly_server_side_filtering (p : Period) (w : Bool)
    (arg : String) (pages : List (List CTEvent)) :
    (buildLookupInput true p).LookupAttributes = [⟨"ReadOnly", "false"⟩] ∧
    (buildLookupInput false p).LookupAttributes = [] ∧
    (GetEvents w arg p (fun _ => pages.map .ok)).emissions =
      pages.map (fun evs => ⟨some evs, none⟩) := by
  refine ⟨rfl, rfl, ?_⟩
  show (producerRun (pages.map .ok)).emissions = _
  rw [producerRun_map_ok]

/-- C8: in every error-free run the producer exits its loop — and the
deferred close closes the channel — exactly when the collaborator has no
further pages, one emission per page, never earlier.  The claim's
"regardless of whether any page errored" part fails on the code: a page
fetch error panics the goroutine (second conjunct), so the deferred close
runs while a page remains and the process crashes. -/
theorem GetEvents_close_at_exhaustion (pages : List (List CTEvent))
    (e1 : CTEvent) (err : FetchError) :
    producerRun (pages.map .ok) =
      ⟨pages.map (fun evs => ⟨some evs, none⟩), false⟩ ∧
    producerRun [.fail err, .ok [e1]] = ⟨[⟨none, some err⟩], true⟩ :=
  ⟨producerRun_map_ok pages, rfl⟩

/-- C10: `GetEvents` ignores its first (string) argument — the Go
parameter is the blank identifier — so with the time window, write-only
flag and collaborator held fixed, any two values of it produce the same
run. -/
theorem GetEvents_ignores_first_argument (w : Bool) (s1 s2 : String)
    (p : Period) (c : LookupEventsInput → List PageOutcome) :
    GetEvents w s1 p c = GetEvents w s2 p c :=
  rfl

/-! ### Concrete instantiations of the theorems with hypotheses -/

set_option maxRecDepth 100000 in
/-- The end-to-end payload of C2, instantiating
`ExtractUserDetails_wellformed_success`. -/
theorem ExtractUserDetails_wellformed_success_witness :
    parseJson "\x7b\"eventVersion\":\"1.9\",\"userIdentity\":\x7b\"accountId\":\"123456789012\"\x7d,\"awsRegion\":\"us-east-1\",\"eventID\":\"evt-1\",\"errorCode\":\"\"\x7d" =
      some (.obj [("eventVersion", .str "1.9"),
        ("userIdentity", .obj [("accountId", .str "123456789012")]),
        ("awsRegion", .str "us-east-1"), ("eventID", .str "evt-1"),
        ("errorCode", .str "")]) ∧
    ExtractUserDetails (some "\x7b\"eventVersion\":\"1.9\",\"userIdentity\":\x7b\"accountId\":\"123456789012\"\x7d,\"awsRegion\":\"us-east-1\",\"eventID\":\"evt-1\",\"errorCode\":\"\"\x7d") =
      (some ⟨"1.9", ⟨"123456789012", ⟨⟨"", "", ""⟩⟩⟩, "us-east-1", "evt-1", ""⟩,
        none) := by
  refine ⟨rfl, ?_⟩
  have h := (ExtractUserDetails_wellformed_success
    "\x7b\"eventVersion\":\"1.9\",\"userIdentity\":\x7b\"accountId\":\"123456789012\"\x7d,\"awsRegion\":\"us-east-1\",\"eventID\":\"evt-1\",\"errorCode\":\"\"\x7d"
    [("eventVersion", .str "1.9"),
     ("userIdentity", .obj [("accountId", .str "123456789012")]),
     ("awsRegion", .str "us-east-1"), ("eventID", .str "evt-1"),
     ("errorCode", .str "")] 9 rfl (by decide) rfl (by decide)).1
  rw [h]
  rfl

set_option maxRecDepth 100000 in
/-- A `"1.7"` payload, instantiating
`ExtractUserDetails_unsupportedVersion_iff` in the failing direction. -/
theorem ExtractUserDetails_unsupportedVersion_iff_witness :
    parseJson "\x7b\"eventVersion\":\"1.7\"\x7d" =
      some (.obj [("eventVersion", .str "1.7")]) ∧
    ((1 : Int) ≠ 1 ∨ (7 : Int) < 8) ∧
    (ExtractUserDetails (some "\x7b\"eventVersion\":\"1.7\"\x7d")).2 =
      some (.unsupportedVersion "1.7") := by
  refine ⟨rfl, by decide, ?_⟩
  exact (ExtractUserDetails_unsupportedVersion_iff
    "\x7b\"eventVersion\":\"1.7\"\x7d" (.obj [("eventVersion", .str "1.7")])
    ⟨"1.7", ⟨"", ⟨⟨"", "", ""⟩⟩⟩, "", "", ""⟩ 1 7 rfl rfl rfl).mpr (by decide)

/-- A nil input, instantiating
`ExtractUserDetails_nil_or_empty_invalidInput`. -/
theorem ExtractUserDetails_nil_or_empty_invalidInput_witness :
    ((none : Option String) = none ∨ (none : Option String) = some "") ∧
    (ExtractUserDetails none = (some zeroRawEventDetails, some .invalidInput) ∧
     ExtractError.message .invalidInput = "cannot parse a nil input") :=
  ⟨Or.inl rfl,
   ExtractUserDetails_nil_or_empty_invalidInput none (Or.inl rfl)⟩

set_option maxRecDepth 100000 in
/-- An `"abc"` event version, instantiating
`ExtractUserDetails_versionParseError`. -/
theorem ExtractUserDetails_versionParseError_witness :
    parseJson "\x7b\"eventVersion\":\"abc\"\x7d" =
      some (.obj [("eventVersion", .str "abc")]) ∧
    sscanfVersion "abc" = none ∧
    ExtractUserDetails (some "\x7b\"eventVersion\":\"abc\"\x7d") =
      (some zeroRawEventDetails, some .versionParseError) :=
  ⟨rfl, rfl,
   ExtractUserDetails_versionParseError "\x7b\"eventVersion\":\"abc\"\x7d"
     (.obj [("eventVersion", .str "abc")])
     ⟨"abc", ⟨"", ⟨⟨"", "", ""⟩⟩⟩, "", "", ""⟩ rfl rfl rfl⟩

/-- A nil input, instantiating `ExtractUserDetails_error_returns_zero`. -/
theorem ExtractUserDetails_error_returns_zero_witness :
    (ExtractUserDetails none).2 = some .invalidInput ∧
    (ExtractUserDetails none).1 = some zeroRawEventDetails :=
  ⟨rfl, ExtractUserDetails_error_returns_zero none .invalidInput rfl⟩

/-- A concrete three-page collaborator, instantiating
`GetEvents_three_pages_stream`. -/
theorem GetEvents_three_pages_stream_witness :
    (["a", "b"] : List CTEvent).length = 2 ∧
    (["c", "d"] : List CTEvent).length = 2 ∧
    (["e"] : List CTEvent).length = 1 ∧
    GetEvents false "cluster" ⟨0, 1⟩
        (fun _ => [.ok ["a", "b"], .ok ["c", "d"], .ok ["e"]]) =
      ⟨[⟨some ["a", "b"], none⟩, ⟨some ["c", "d"], none⟩, ⟨some ["e"], none⟩],
        false⟩ ∧
    totalRecords (GetEvents false "cluster" ⟨0, 1⟩
      (fun _ => [.ok ["a", "b"], .ok ["c", "d"], .ok ["e"]])) = 5 := by
  have h := GetEvents_three_pages_stream false "cluster" ⟨0, 1⟩
    (fun _ => [.ok ["a", "b"], .ok ["c", "d"], .ok ["e"]])
    ["a", "b"] ["c", "d"] ["e"] rfl rfl rfl rfl
  exact ⟨rfl, rfl, rfl, h.1, h.2⟩

end Cloudtrail
